import Mathlib

/-!
Verification of the repo-summarizer content-curation pipeline
(`src/repo_summarizer`).  Python services are shallowly embedded as
executable Lean definitions; external libraries (the tiktoken tokenizer,
the networkx PageRank routine, the CPython parser) are modelled as
documented at their definitions.
-/

/- The library marks the rational-number operations irreducible, which only
affects elaboration, not the kernel; re-marking them semireducible lets the
concrete score computations below evaluate. -/
set_option allowUnsafeReducibility true in
attribute [semireducible] Rat.add Rat.mul Rat.sub Rat.inv Rat.div

set_option maxRecDepth 16000

namespace RepoSummarizer

/-! ## Tokenizer model (external dependency)

The source counts tokens with tiktoken's cl100k_base encoding
(`token_budget.py`, `_get_encoder` / `count_tokens`).  The encoder is an
external library, modelled here as the one-character-per-token encoding:
`encode` yields the character list, `decode` rebuilds the string.  This
keeps every property the claims use (counts are non-negative, decoding a
token list of length n yields a text of n tokens, counts add over
concatenation, a non-empty text has a positive count). -/

def encode (s : String) : List Char := s.data

def decode (l : List Char) : String := ⟨l⟩

/-- `count_tokens` from token_budget.py: length of the encoded text. -/
def count_tokens (s : String) : Nat := (encode s).length

/-- The fixed marker appended by `truncate_to_budget` (token_budget.py line 63). -/
def truncationMarker : String := "\n[… truncated to fit token budget]"

/-- Index of the last newline in a character list (Python `str.rfind("\n")`,
`none` standing for Python's −1). -/
def lastNewlineIdx : List Char → Option Nat
  | [] => none
  | c :: cs =>
    match lastNewlineIdx cs with
    | some i => some (i + 1)
    | none => if c = '\n' then some 0 else none

/-- `truncate_to_budget` (token_budget.py lines 46–63): if the text exceeds
`max_tokens` tokens, keep only the first `max_tokens` tokens, roll back to the
last newline when it lies in the back half, and append the truncation marker.
The Python parameter is an int; the allocator only ever passes non-negative
caps and the claims quantify over non-negative caps, so the model takes a
`Nat`. -/
def truncate_to_budget (text : String) (max_tokens : Nat) : String :=
  let tokens := encode text
  if tokens.length ≤ max_tokens then text
  else
    let truncated := tokens.take max_tokens
    let rolled :=
      match lastNewlineIdx truncated with
      | some i => if truncated.length / 2 < i then truncated.take (i + 1) else truncated
      | none => truncated
    decode rolled ++ truncationMarker

/-! ## Budget allocation (token_budget.py) -/

/-- `BudgetSlot` dataclass.  Python ints for `max_tokens`; `used_tokens` is a
token count, always set from `count_tokens`, hence a `Nat`. -/
structure BudgetSlot where
  name : String
  max_tokens : Int
  content : String := ""
  used_tokens : Nat := 0
  deriving Repr, DecidableEq

/-- `BudgetedContent` dataclass. -/
structure BudgetedContent where
  slots : List BudgetSlot := []
  total_tokens : Nat := 0
  budget_limit : Nat := 0
  deriving Repr, DecidableEq

/-- `BudgetedContent.get_slot`: first slot with the given name. -/
def BudgetedContent.get_slot (b : BudgetedContent) (name : String) : Option BudgetSlot :=
  b.slots.find? (fun s => s.name = name)

/-- `_SLOT_PROPORTIONS`: the static slot table.  The Python table stores the
proportions as the floats 0.02, 0.28, 0.15, 0.10, 0.40; they are carried here
as percent numerators and `int(usable * proportion)` is modelled as the
floor `usable * pct / 100`. -/
def SLOT_PROPORTIONS : List (String × Nat) :=
  [("languages", 2), ("readme", 28), ("config", 15), ("tree", 10), ("source", 40)]

/-- The slot-processing loop of `allocate` (token_budget.py lines 116–146):
walks the slot table threading the running `remaining` budget (a Python int,
which truncation overshoot can drive negative, hence `Int`). -/
def allocGo (contents : String → Option String) (usable : Nat) :
    List (String × Nat) → Int → List BudgetSlot
  | [], _ => []
  | (slot_name, pct) :: rest, remaining =>
    let raw_text := (contents slot_name).getD ""
    let slot_max : Int := (usable * pct / 100 : Nat)
    let effective_max := min (slot_max + (remaining - slot_max)) remaining
    let effective_max := max effective_max 0
    if raw_text = "" then
      { name := slot_name, max_tokens := effective_max } ::
        allocGo contents usable rest remaining
    else
      let actual_tokens := count_tokens raw_text
      if (actual_tokens : Int) ≤ effective_max then
        { name := slot_name, max_tokens := effective_max, content := raw_text,
          used_tokens := actual_tokens } ::
          allocGo contents usable rest (remaining - actual_tokens)
      else
        let fitted_text := truncate_to_budget raw_text effective_max.toNat
        let used := count_tokens fitted_text
        { name := slot_name, max_tokens := effective_max, content := fitted_text,
          used_tokens := used } ::
          allocGo contents usable rest (remaining - used)

/-- Sum of the slots' actual token usage (`sum(s.used_tokens for s in slots)`). -/
def sumUsed (slots : List BudgetSlot) : Nat := (slots.map (·.used_tokens)).sum

/-- The five-percent safety reserve, `int(total_budget * 0.05)`: for the
non-negative budgets the claims quantify over this is the floor of a
twentieth of the budget. -/
def budgetReserve (total_budget : Nat) : Nat := total_budget * 5 / 100

/-- The usable budget, `total_budget - reserve`. -/
def usableBudget (total_budget : Nat) : Nat := total_budget - budgetReserve total_budget

/-- `allocate` (token_budget.py lines 94–149).  The `contents` dict is
modelled as a partial map; `contents.get(slot_name, "")` is `(contents
name).getD ""`.  The claims quantify over non-negative budgets, so the model
takes a `Nat` budget. -/
def allocate (contents : String → Option String) (total_budget : Nat) : BudgetedContent :=
  let usable := usableBudget total_budget
  let slots := allocGo contents usable SLOT_PROPORTIONS (usable : Int)
  { slots := slots, total_tokens := sumUsed slots, budget_limit := total_budget }

/-! ### Lemmas about truncation -/

theorem count_tokens_append (a b : String) :
    count_tokens (a ++ b) = count_tokens a + count_tokens b := by
  simp [count_tokens, encode, String.data_append]

theorem count_tokens_decode (l : List Char) : count_tokens (decode l) = l.length := rfl

/-- Whatever branch the rollback takes, the kept text has at most
`max_tokens` tokens, so the result is at most `max_tokens` plus the marker. -/
theorem truncate_len_le (t : String) (n : Nat) :
    count_tokens (truncate_to_budget t n) ≤ n + count_tokens truncationMarker := by
  unfold truncate_to_budget
  by_cases h : (encode t).length ≤ n
  · simp only [h, if_true]
    exact le_trans h (Nat.le_add_right _ _)
  · simp only [h, if_false]
    rw [count_tokens_append, count_tokens_decode]
    have htrunc : ((encode t).take n).length ≤ n := by
      simp
    have hroll : ∀ l : List Char,
        (match lastNewlineIdx l with
          | some i => if l.length / 2 < i then l.take (i + 1) else l
          | none => l).length ≤ l.length := by
      intro l
      cases hidx : lastNewlineIdx l with
      | none => simp
      | some i =>
        by_cases hc : l.length / 2 < i
        · simp only [hc, if_true, List.length_take]
          exact Nat.min_le_right _ _
        · simp [hc]
    exact Nat.add_le_add (le_trans (hroll _) htrunc) le_rfl

theorem truncate_of_fits (t : String) (n : Nat) (h : count_tokens t ≤ n) :
    truncate_to_budget t n = t := by
  unfold truncate_to_budget
  simp only [count_tokens] at h
  simp [h]

/-! ### Lemmas about the allocation loop -/

theorem sumUsed_nil : sumUsed [] = 0 := rfl

theorem sumUsed_cons (s : BudgetSlot) (l : List BudgetSlot) :
    sumUsed (s :: l) = s.used_tokens + sumUsed l := by
  simp [sumUsed]

/-- One step of the allocation loop: whatever the branch, the head slot's
recorded cap is the running remainder clamped at zero (the proportion-derived
`slot_max` cancels out of the effective-cap formula), its usage overshoots
that cap by at most the truncation marker, and the tail continues with the
remainder decreased by the usage. -/
theorem allocGo_cons (c : String → Option String) (u : Nat) (nm : String) (pct : Nat)
    (rest : List (String × Nat)) (r : Int) :
    ∃ s : BudgetSlot,
      allocGo c u ((nm, pct) :: rest) r = s :: allocGo c u rest (r - s.used_tokens) ∧
      s.name = nm ∧ s.max_tokens = max r 0 ∧
      (s.used_tokens : Int) ≤ max r 0 + count_tokens truncationMarker := by
  have hmm : ∀ sm : Int, max (min (sm + (r - sm)) r) 0 = max r 0 := by
    intro sm
    have h : sm + (r - sm) = r := by ring
    rw [h, min_self]
  simp only [allocGo, hmm]
  by_cases hraw : (c nm).getD "" = ""
  · simp only [hraw, if_true]
    refine ⟨⟨nm, max r 0, "", 0⟩, ?_, rfl, rfl, ?_⟩
    · norm_num
    · push_cast
      exact add_nonneg (le_max_right r 0) (Int.ofNat_nonneg _)
  · simp only [hraw, if_false]
    by_cases hfit : (count_tokens ((c nm).getD "") : Int) ≤ max r 0
    · simp only [hfit, if_true]
      refine ⟨⟨nm, max r 0, (c nm).getD "", count_tokens ((c nm).getD "")⟩,
        rfl, rfl, rfl, ?_⟩
      exact le_trans hfit (le_add_of_nonneg_right (Int.ofNat_nonneg _))
    · simp only [hfit, if_false]
      refine ⟨⟨nm, max r 0, truncate_to_budget ((c nm).getD "") (max r 0).toNat,
        count_tokens (truncate_to_budget ((c nm).getD "") (max r 0).toNat)⟩,
        rfl, rfl, rfl, ?_⟩
      have hb := truncate_len_le ((c nm).getD "") (max r 0).toNat
      have hcast : ((max r 0).toNat : Int) = max r 0 :=
        Int.toNat_of_nonneg (le_max_right r 0)
      calc (count_tokens (truncate_to_budget ((c nm).getD "") (max r 0).toNat) : Int)
          ≤ ((max r 0).toNat : Int) + (count_tokens truncationMarker : Int) := by
            exact_mod_cast hb
        _ = max r 0 + count_tokens truncationMarker := by rw [hcast]

/-- The allocation loop emits exactly one slot per table row, named after it. -/
theorem allocGo_names (c : String → Option String) (u : Nat) :
    ∀ (props : List (String × Nat)) (r : Int),
      (allocGo c u props r).map (·.name) = props.map (·.1)
  | [], _ => rfl
  | (nm, pct) :: rest, r => by
    obtain ⟨s, heq, hname, _, _⟩ := allocGo_cons c u nm pct rest r
    rw [heq]
    simpa [hname] using allocGo_names c u rest (r - s.used_tokens)

/-- Total usage overshoots the positive part of the starting remainder by at
most one truncation marker per table row. -/
theorem allocGo_sum_le (c : String → Option String) (u : Nat) :
    ∀ (props : List (String × Nat)) (r : Int),
      (sumUsed (allocGo c u props r) : Int) ≤
        max r 0 + (count_tokens truncationMarker : Int) * props.length
  | [], r => by
    rw [show allocGo c u [] r = [] from rfl, sumUsed_nil]
    norm_num
  | (nm, pct) :: rest, r => by
    obtain ⟨s, heq, _, _, hused⟩ := allocGo_cons c u nm pct rest r
    rw [heq, sumUsed_cons]
    have ih := allocGo_sum_le c u rest (r - s.used_tokens)
    set M : Int := (count_tokens truncationMarker : Int) with hM
    have hM0 : 0 ≤ M := by rw [hM]; exact Int.ofNat_nonneg _
    have hexp : M * ((rest.length : Int) + 1) = M * rest.length + M := by ring
    simp only [List.length_cons]
    push_cast
    rcases le_or_lt 0 (r - (s.used_tokens : Int)) with hpos | hneg
    · rw [max_eq_left hpos] at ih
      have hr : r ≤ max r 0 := le_max_left r 0
      linarith
    · rw [max_eq_right (le_of_lt hneg)] at ih
      linarith

/-- Every emitted slot has a non-negative cap, and its usage exceeds the cap
by at most the truncation marker's token count. -/
theorem allocGo_mem_bounds (c : String → Option String) (u : Nat) :
    ∀ (props : List (String × Nat)) (r : Int) (s : BudgetSlot),
      s ∈ allocGo c u props r →
        0 ≤ s.max_tokens ∧
        (s.used_tokens : Int) ≤ s.max_tokens + count_tokens truncationMarker
  | [], _, s, hs => by simp [allocGo] at hs
  | (nm, pct) :: rest, r, s, hs => by
    obtain ⟨s₀, heq, _, hmax, hused⟩ := allocGo_cons c u nm pct rest r
    rw [heq] at hs
    rcases List.mem_cons.mp hs with hhead | htail
    · subst hhead
      exact ⟨hmax ▸ le_max_right r 0, hmax ▸ hused⟩
    · exact allocGo_mem_bounds c u rest (r - s₀.used_tokens) s htail

/-- Each slot's recorded cap is the starting remainder minus the usage of all
earlier slots, clamped at zero. -/
theorem allocGo_get_max (c : String → Option String) (u : Nat) :
    ∀ (props : List (String × Nat)) (r : Int) (i : Nat)
      (h : i < (allocGo c u props r).length),
      ((allocGo c u props r).get ⟨i, h⟩).max_tokens =
        max (r - (sumUsed ((allocGo c u props r).take i) : Int)) 0
  | [], r, i, h => by simp [allocGo] at h
  | (nm, pct) :: rest, r, i, h => by
    obtain ⟨s, heq, _, hmax, _⟩ := allocGo_cons c u nm pct rest r
    have hget := List.get_of_eq heq ⟨i, h⟩
    match i with
    | 0 =>
      rw [hget]
      show s.max_tokens = max (r - (sumUsed ((allocGo c u ((nm, pct) :: rest) r).take 0) : Int)) 0
      rw [List.take_zero, sumUsed_nil]
      simpa using hmax
    | Nat.succ j =>
      have h' : j < (allocGo c u rest (r - s.used_tokens)).length := by
        rw [heq] at h
        exact Nat.lt_of_succ_lt_succ h
      have ih := allocGo_get_max c u rest (r - s.used_tokens) j h'
      rw [hget]
      show ((allocGo c u rest (r - s.used_tokens)).get ⟨j, h'⟩).max_tokens =
        max (r - (sumUsed ((allocGo c u ((nm, pct) :: rest) r).take (j + 1)) : Int)) 0
      rw [ih]
      have htake : (allocGo c u ((nm, pct) :: rest) r).take (j + 1) =
          s :: (allocGo c u rest (r - s.used_tokens)).take j := by
        rw [heq, List.take_succ_cons]
      rw [htake, sumUsed_cons]
      congr 1
      push_cast
      ring

/-! ### Claim C2 -/

/-- C2 (counterexample): the token count of a truncated text can exceed the
cap, because the truncation marker is appended after the cut — at cap 0 a
one-token text truncates to the bare marker, which has positive count. -/
theorem truncate_to_budget_cap_violation :
    ¬ count_tokens (truncate_to_budget "x" 0) ≤ 0 := by decide

/-- C2 (amended): truncation of an over-budget text exceeds the cap by at
most the appended truncation marker's token count; a text already within the
cap is returned verbatim. -/
theorem truncate_to_budget_token_bound (t : String) (n : Nat) :
    count_tokens (truncate_to_budget t n) ≤ n + count_tokens truncationMarker ∧
    (count_tokens t ≤ n → truncate_to_budget t n = t) :=
  ⟨truncate_len_le t n, truncate_of_fits t n⟩

/-- C2 (witness): the amended bound evaluated at concrete inputs, its inner
hypothesis discharged at a text that fits its cap. -/
theorem truncate_to_budget_token_bound_witness :
    count_tokens (truncate_to_budget "a\nbcdef" 3) ≤ 3 + count_tokens truncationMarker ∧
    truncate_to_budget "ab" 5 = "ab" :=
  ⟨(truncate_to_budget_token_bound "a\nbcdef" 3).1,
   (truncate_to_budget_token_bound "ab" 5).2 (by decide)⟩

/-! ### Claim C1 -/

/-- Concrete contents map whose only slot text does not fit a zero budget. -/
def overflowContents : String → Option String :=
  fun n => if n = "languages" then some "x" else none

/-- C1 (counterexample): at total budget 0 with a non-empty languages text,
the appended truncation marker makes the total token count positive, so
totalTokens exceeds budgetLimit. -/
theorem allocate_total_exceeds_budget :
    ¬ (allocate overflowContents 0).total_tokens ≤ (allocate overflowContents 0).budget_limit := by
  decide

/-- C1 (amended): totalTokens always equals the sum of the slots' usedTokens;
and totalTokens ≤ budgetLimit whenever the five-percent reserve covers the
worst-case truncation-marker overshoot (one marker per table slot), in
particular at the default budget of 12000. -/
theorem allocate_total_eq_sum_and_le_budget (c : String → Option String) (B : Nat)
    (hres : 5 * count_tokens truncationMarker ≤ budgetReserve B) :
    (allocate c B).total_tokens = sumUsed (allocate c B).slots ∧
    (allocate c B).total_tokens ≤ (allocate c B).budget_limit := by
  refine ⟨rfl, ?_⟩
  have hsum := allocGo_sum_le c (usableBudget B) SLOT_PROPORTIONS ((usableBudget B : Nat) : Int)
  have hlen : (SLOT_PROPORTIONS.length : Int) = 5 := by decide
  rw [hlen, max_eq_left (Int.ofNat_nonneg _)] at hsum
  have hresB : budgetReserve B ≤ B := by
    unfold budgetReserve
    omega
  have husable : (usableBudget B : Int) + budgetReserve B = B := by
    have : usableBudget B + budgetReserve B = B := Nat.sub_add_cancel hresB
    exact_mod_cast this
  have hres' : ((count_tokens truncationMarker : Int)) * 5 ≤ (budgetReserve B : Int) := by
    have : (5 * count_tokens truncationMarker : Nat) ≤ budgetReserve B := hres
    push_cast at this
    linarith
  have : ((allocate c B).total_tokens : Int) ≤ (B : Int) := by
    calc ((allocate c B).total_tokens : Int)
        = (sumUsed (allocGo c (usableBudget B) SLOT_PROPORTIONS (usableBudget B)) : Int) := rfl
      _ ≤ (usableBudget B : Int) + (count_tokens truncationMarker : Int) * 5 := hsum
      _ ≤ (usableBudget B : Int) + budgetReserve B := by linarith
      _ = B := husable
  exact_mod_cast this

/-- C1 (witness): the amended statement evaluated at the default budget. -/
theorem allocate_total_eq_sum_and_le_budget_witness :
    (allocate overflowContents 12000).total_tokens =
      sumUsed (allocate overflowContents 12000).slots ∧
    (allocate overflowContents 12000).total_tokens ≤
      (allocate overflowContents 12000).budget_limit :=
  allocate_total_eq_sum_and_le_budget overflowContents 12000 (by decide)

/-! ### Claim C3 -/

/-- C3 (counterexample): at total budget 0 with a non-empty languages text,
the languages slot records usedTokens 34 against maxTokens 0 — the appended
truncation marker pushes usage past the cap. -/
theorem allocate_slot_used_exceeds_max :
    ¬ ∀ s ∈ (allocate overflowContents 0).slots, (s.used_tokens : Int) ≤ s.max_tokens := by
  decide

/-- C3 (amended): every slot satisfies 0 ≤ usedTokens and maxTokens ≥ 0, and
usedTokens ≤ maxTokens + the truncation marker's token count (with equality
of the claimed bound usedTokens ≤ maxTokens whenever no truncation happened;
the marker is the only source of overshoot). -/
theorem allocate_slot_bounds (c : String → Option String) (B : Nat) (s : BudgetSlot)
    (hs : s ∈ (allocate c B).slots) :
    (0 : Int) ≤ s.used_tokens ∧ 0 ≤ s.max_tokens ∧
    (s.used_tokens : Int) ≤ s.max_tokens + count_tokens truncationMarker := by
  have h := allocGo_mem_bounds c (usableBudget B) SLOT_PROPORTIONS (usableBudget B) s hs
  exact ⟨Int.ofNat_nonneg _, h.1, h.2⟩

/-- The slot produced for the languages text of `overflowContents` at budget 0. -/
def overflowSlot : BudgetSlot := ⟨"languages", 0, truncationMarker, 34⟩

/-- C3 (witness): the amended bounds at a concrete slot of a concrete run. -/
theorem allocate_slot_bounds_witness :
    overflowSlot ∈ (allocate overflowContents 0).slots ∧
    ((0 : Int) ≤ overflowSlot.used_tokens ∧ 0 ≤ overflowSlot.max_tokens ∧
      (overflowSlot.used_tokens : Int) ≤
        overflowSlot.max_tokens + count_tokens truncationMarker) :=
  ⟨by decide, allocate_slot_bounds overflowContents 0 overflowSlot (by decide)⟩

/-! ### Claim C7 -/

/-- Concrete contents whose languages text far overshoots a tiny budget,
driving the running remainder negative. -/
def longLangContents : String → Option String :=
  fun n =>
    if n = "languages" then
      some ("the quick brown fox jumps over the lazy dog " ++
        "the quick brown fox jumps over the lazy dog " ++
        "the quick brown fox jumps over the lazy dog")
    else none

/-- C7 (counterexample): after the truncation marker drives the remainder
negative, the next slot's recorded cap is the clamp 0, not usable minus the
tokens used by earlier slots (which is −34 here). -/
theorem allocate_max_tokens_not_remainder :
    ((allocate longLangContents 20).slots.get ⟨1, by decide⟩).max_tokens ≠
      (usableBudget 20 : Int) -
        sumUsed ((allocate longLangContents 20).slots.take 1) := by
  decide

/-- C7 (amended): the effective-cap expression collapses so that each slot's
recorded maxTokens is the usable budget minus the tokens used by all earlier
slots, clamped below at zero; the per-slot target proportions never constrain
any cap, and the first slot's cap is the whole usable budget. -/
theorem allocate_max_tokens_eq_clamped_remainder (c : String → Option String) (B : Nat)
    (i : Nat) (h : i < (allocate c B).slots.length) :
    ((allocate c B).slots.get ⟨i, h⟩).max_tokens =
      max ((usableBudget B : Int) - sumUsed ((allocate c B).slots.take i)) 0 :=
  allocGo_get_max c (usableBudget B) SLOT_PROPORTIONS (usableBudget B) i h

/-- C7 (witness): the amended cap formula at a concrete run and slot index. -/
theorem allocate_max_tokens_eq_clamped_remainder_witness :
    ((allocate longLangContents 20).slots.get ⟨1, by decide⟩).max_tokens =
      max ((usableBudget 20 : Int) -
        sumUsed ((allocate longLangContents 20).slots.take 1)) 0 :=
  allocate_max_tokens_eq_clamped_remainder longLangContents 20 1 (by decide)

/-! ## Multi-pass decision (summarize_repo.py) -/

/-- `SummarizeRepoUseCase._needs_multi_pass` (summarize_repo.py lines
309–318): multi-pass is selected when the raw, pre-truncation source text is
non-empty, the budgeted result has a source slot, and the raw token count
exceeds twice the slot's recorded cap. -/
def needs_multi_pass (budgeted : BudgetedContent) (raw : String → Option String) : Bool :=
  let raw_source := (raw "source").getD ""
  if raw_source = "" then false
  else
    match budgeted.get_slot "source" with
    | none => false
    | some source_slot => decide ((count_tokens raw_source : Int) > source_slot.max_tokens * 2)

/-- Every allocation result carries a slot for each row of the static table,
in particular a source slot. -/
theorem allocate_get_slot_source (c : String → Option String) (B : Nat) :
    ∃ slot, (allocate c B).get_slot "source" = some slot := by
  have hnames := allocGo_names c (usableBudget B) SLOT_PROPORTIONS (usableBudget B)
  have hmem : "source" ∈ ((allocate c B).slots.map (·.name)) := by
    rw [show (allocate c B).slots
        = allocGo c (usableBudget B) SLOT_PROPORTIONS (usableBudget B) from rfl, hnames]
    decide
  obtain ⟨s, hs, hname⟩ := List.mem_map.mp hmem
  have hsome : ((allocate c B).get_slot "source").isSome := by
    unfold BudgetedContent.get_slot
    exact List.find?_isSome.mpr ⟨s, hs, by simp [hname]⟩
  obtain ⟨slot, hslot⟩ := Option.isSome_iff_exists.mp hsome
  exact ⟨slot, hslot⟩

/-! ### Claim C9 -/

/-- C9 (confirmed): for a budgeted result produced by the allocator whose
source slot has non-empty raw text, multi-pass is selected exactly when the
raw (pre-truncation) token count of the source text exceeds twice the source
slot's recorded cap. -/
theorem needs_multi_pass_iff (c : String → Option String) (B : Nat)
    (hraw : (c "source").getD "" ≠ "") :
    ∃ slot, (allocate c B).get_slot "source" = some slot ∧
      (needs_multi_pass (allocate c B) c = true ↔
        (count_tokens ((c "source").getD "") : Int) > 2 * slot.max_tokens) := by
  obtain ⟨slot, hslot⟩ := allocate_get_slot_source c B
  refine ⟨slot, hslot, ?_⟩
  unfold needs_multi_pass
  simp only [hraw, if_false, hslot, decide_eq_true_eq, mul_comm]

/-- Concrete contents map with a short non-empty source text. -/
def sourceOnlyContents : String → Option String :=
  fun n => if n = "source" then some "def f():\n    return 1" else none

/-- C9 (witness): the equivalence at a concrete contents map and budget. -/
theorem needs_multi_pass_iff_witness :
    ∃ slot, (allocate sourceOnlyContents 100).get_slot "source" = some slot ∧
      (needs_multi_pass (allocate sourceOnlyContents 100) sourceOnlyContents = true ↔
        (count_tokens ((sourceOnlyContents "source").getD "") : Int) >
          2 * slot.max_tokens) :=
  needs_multi_pass_iff sourceOnlyContents 100 (by decide)

/-! ## String utilities

Python string methods used by the services, implemented over the character
list so that every definition evaluates by kernel reduction. -/

/-- Python `str.lower()` (ASCII model). -/
def pyToLower (s : String) : String := ⟨s.data.map Char.toLower⟩

/-- Python `str.startswith`. -/
def strStartsWith (s pre : String) : Bool := pre.data.isPrefixOf s.data

/-- Python `str.endswith`. -/
def strEndsWith (s suf : String) : Bool := suf.data.isSuffixOf s.data

/-- Python `str.strip()` (whitespace model per `Char.isWhitespace`). -/
def pyStrip (s : String) : String :=
  ⟨((s.data.dropWhile Char.isWhitespace).reverse.dropWhile Char.isWhitespace).reverse⟩

/-- Split at every occurrence of a separator character (`str.split(sep)`
semantics: n separators yield n+1 pieces). -/
def splitChar (t : Char) : List Char → List (List Char)
  | [] => [[]]
  | c :: cs =>
    match splitChar t cs with
    | [] => [[c]]
    | h :: rest => if c = t then [] :: h :: rest else (c :: h) :: rest

/-- Python `sep.join` with a newline separator. -/
def joinNl (l : List String) : String := ⟨List.intercalate ['\n'] (l.map String.data)⟩

/-! ## File filtering and classification (file_filter.py, domain/entities.py) -/

/-- `FileCategory` enum. -/
inductive FileCategory where
  | README | CONFIG | ENTRY_POINT | SOURCE | TEST | DOCS | OTHER
  deriving Repr, DecidableEq

/-- `FileNode` dataclass: one node of the fetched tree. -/
structure FileNode where
  path : String
  type : String
  size : Int := 0
  deriving Repr, DecidableEq

/-- Substring test (Python's `sub in s`). -/
def strContains (s sub : String) : Bool :=
  go s.data
where
  go : List Char → Bool
    | [] => sub.data.isEmpty
    | l@(_ :: rest) => sub.data.isPrefixOf l || go rest

def SKIP_DIRS : List String :=
  ["node_modules", ".git", "dist", "build", "out", "venv", ".venv", "env",
   "__pycache__", ".tox", ".nox", ".mypy_cache", ".pytest_cache", ".ruff_cache",
   "vendor", ".idea", ".vscode", ".next", ".nuxt", "coverage", ".coverage",
   "htmlcov", ".eggs", "target", "Pods", ".gradle", ".terraform"]

def SKIP_EXTENSIONS : List String :=
  [".pyc", ".pyo", ".so", ".o", ".a", ".dylib",
   ".dll", ".exe", ".bin", ".class", ".jar",
   ".png", ".jpg", ".jpeg", ".gif", ".bmp", ".svg", ".ico",
   ".webp", ".mp3", ".mp4", ".avi", ".mov", ".wav",
   ".woff", ".woff2", ".ttf", ".eot", ".otf",
   ".zip", ".tar", ".gz", ".bz2", ".rar", ".7z",
   ".pdf", ".doc", ".docx", ".xls", ".xlsx",
   ".lock", ".min.js", ".min.css", ".map", ".DS_Store"]

def SKIP_FILENAMES : List String :=
  [".DS_Store", "Thumbs.db", ".gitattributes", ".editorconfig",
   "yarn.lock", "package-lock.json", "pnpm-lock.yaml", "Pipfile.lock",
   "poetry.lock", "composer.lock", "Gemfile.lock", "Cargo.lock"]

def SECRET_FILES : List String :=
  [".env", ".env.local", ".env.production", ".env.development"]

def README_NAMES : List String :=
  ["readme.md", "readme.rst", "readme.txt", "readme"]

def CONFIG_NAMES : List String :=
  ["pyproject.toml", "setup.py", "setup.cfg",
   "package.json", "tsconfig.json", "webpack.config.js", "vite.config.ts",
   "requirements.txt", "requirements.in",
   "Pipfile", "Cargo.toml", "go.mod", "go.sum",
   "Gemfile", "build.gradle", "pom.xml",
   "Makefile", "CMakeLists.txt", "Justfile",
   "Dockerfile", "docker-compose.yml", "docker-compose.yaml",
   ".env.example", "tox.ini", ".flake8", "ruff.toml", ".prettierrc"]

def ENTRY_POINT_NAMES : List String :=
  ["main.py", "app.py", "manage.py", "wsgi.py", "asgi.py",
   "index.js", "index.ts", "index.tsx",
   "server.py", "server.js", "server.ts",
   "cli.py", "cli.js",
   "main.go", "main.rs", "main.c", "main.cpp", "Program.cs"]

def TEST_INDICATORS : List String :=
  ["test_", "_test.", ".test.", "tests/", "spec/", "__tests__/"]

def DOCS_INDICATORS : List String :=
  ["docs/", "doc/", "documentation/"]

/-- `_segment_in_skip_dirs` (file_filter.py lines 113–119). -/
def segment_in_skip_dirs (path : String) : Bool :=
  ((splitChar '/' path.data).map (fun l => (⟨l⟩ : String))).any
    (fun part => part ∈ SKIP_DIRS || strEndsWith part ".egg-info")

/-- `_has_skip_extension` (file_filter.py lines 122–124); the caller passes
an already-lowercased path. -/
def has_skip_extension (lower : String) : Bool :=
  SKIP_EXTENSIONS.any (fun ext => strEndsWith lower ext)

/-- `_filename` (file_filter.py lines 127–128): text after the last slash. -/
def filename (path : String) : String :=
  (((splitChar '/' path.data).map (fun l => (⟨l⟩ : String))).getLastD "")

/-- `should_skip` (file_filter.py lines 131–150). -/
def should_skip (node : FileNode) (max_size_kb : Int) : Bool :=
  if node.type ≠ "blob" then true
  else
    let path_lower := pyToLower node.path
    let name := filename path_lower
    if name ∈ SECRET_FILES then true
    else if name ∈ SKIP_FILENAMES then true
    else if segment_in_skip_dirs node.path then true
    else if has_skip_extension path_lower then true
    else if node.size > max_size_kb * 1024 then true
    else false

/-- `classify` (file_filter.py lines 153–169): first-match-wins precedence. -/
def classify (path : String) : FileCategory :=
  let name_lower := pyToLower (filename path)
  let path_lower := pyToLower path
  if name_lower ∈ README_NAMES then .README
  else if name_lower ∈ CONFIG_NAMES then .CONFIG
  else if name_lower ∈ ENTRY_POINT_NAMES then .ENTRY_POINT
  else if TEST_INDICATORS.any (fun ind => strContains path_lower ind) then .TEST
  else if DOCS_INDICATORS.any (fun ind => strContains path_lower ind) then .DOCS
  else .SOURCE

/-- `filter_and_classify` (file_filter.py lines 172–182). -/
def filter_and_classify (nodes : List FileNode) (max_size_kb : Int) :
    List (FileNode × FileCategory) :=
  nodes.filterMap (fun node =>
    if should_skip node max_size_kb then none else some (node, classify node.path))

/-! ## Empty-repository detection (summarize_repo.py) -/

/-- The pipeline failure kinds relevant to the fetched-tree stage. -/
inductive PipelineFailure where
  | emptyRepository
  deriving Repr, DecidableEq

/-- The tree-classification stage of `SummarizeRepoUseCase.execute`
(summarize_repo.py lines 124–132): an empty tree and a tree with no
survivors of filtering both raise `EmptyRepositoryError`. -/
def classifyStage (tree : List FileNode) (max_size_kb : Int) :
    Except PipelineFailure (List (FileNode × FileCategory)) :=
  if tree = [] then .error .emptyRepository
  else
    let classified := filter_and_classify tree max_size_kb
    if classified = [] then .error .emptyRepository
    else .ok classified

/-! ### Claim C10 -/

/-- C10 (confirmed): a fetched tree with no blob entries — empty, all
tree-type nodes, or fully rejected by filtering — makes the pipeline signal
the empty-repository failure instead of producing a summary. -/
theorem classifyStage_empty_of_no_blobs (tree : List FileNode) (kb : Int)
    (h : ∀ n ∈ tree, n.type ≠ "blob") :
    classifyStage tree kb = .error .emptyRepository := by
  unfold classifyStage
  by_cases ht : tree = []
  · simp [ht]
  · have hfc : filter_and_classify tree kb = [] := by
      rw [filter_and_classify, List.filterMap_eq_nil_iff]
      intro n hn
      simp [should_skip, h n hn]
    simp [ht, hfc]

/-- C10 (witness): a tree holding only a directory node is signalled empty. -/
theorem classifyStage_empty_of_no_blobs_witness :
    classifyStage [⟨"src", "tree", 0⟩] 200 = .error .emptyRepository :=
  classifyStage_empty_of_no_blobs [⟨"src", "tree", 0⟩] 200 (by decide)

/-! ## Regular-expression engine

The sentinel and extractor use Python's `re` module (external).  The
patterns involved use only literals, character classes, alternation, greedy
option and greedy counted repetition of a character class, so the engine
models exactly those constructs, with Python's preference order: leftmost
start position, alternatives tried left to right, greedy quantifiers trying
the longest count first and backtracking downwards.  Classes `\s` and `\w`
and IGNORECASE folding are modelled over ASCII, which covers every character
the repository's patterns and the inputs below use. -/

inductive Rx where
  | lit : List Char → Rx
  | cls : (Char → Bool) → Rx
  | seq : Rx → Rx → Rx
  | alt : Rx → Rx → Rx
  | opt : Rx → Rx
  | repEq : (Char → Bool) → Nat → Rx
  | repGE : (Char → Bool) → Nat → Rx

/-- Length of the leading run of characters satisfying `p`. -/
def runLength (p : Char → Bool) : List Char → Nat
  | [] => 0
  | c :: cs => if p c then runLength p cs + 1 else 0

/-- Backtracking over the count of a greedy class repetition: try the
continuation after dropping `hi` characters, then `hi − 1`, …, down to `lo`. -/
def tryCounts (k : List Char → Option (List Char)) (s : List Char) (lo : Nat) :
    Nat → Option (List Char)
  | 0 => if lo = 0 then k s else none
  | i + 1 =>
    if i + 1 < lo then none
    else (k (s.drop (i + 1))).orElse (fun _ => tryCounts k s lo i)

/-- Continuation-passing matcher: `mtch r s k` feeds every suffix reachable
by matching `r` at the head of `s` to `k`, in Python's preference order, and
returns the first success. -/
def mtch : Rx → List Char → (List Char → Option (List Char)) → Option (List Char)
  | .lit l, s, k => if l.isPrefixOf s then k (s.drop l.length) else none
  | .cls p, s, k =>
    match s with
    | [] => none
    | c :: rest => if p c then k rest else none
  | .seq a b, s, k => mtch a s (fun s1 => mtch b s1 k)
  | .alt a b, s, k => (mtch a s k).orElse (fun _ => mtch b s k)
  | .opt a, s, k => (mtch a s k).orElse (fun _ => k s)
  | .repEq p n, s, k =>
    if n ≤ s.length ∧ (s.take n).all p then k (s.drop n) else none
  | .repGE p n, s, k =>
    let run := runLength p s
    if run < n then none else tryCounts k s n run

/-- Length of the match of `r` anchored at the head of `s` (Python
`pattern.match`), if any. -/
def matchLenAt (r : Rx) (s : List Char) : Option Nat :=
  (mtch r s some).map (fun rest => s.length - rest.length)

/-- Whether `r` matches at the very start of `line` (`pattern.match(line)`). -/
def matchAtStart (r : Rx) (line : String) : Bool :=
  (matchLenAt r line.data).isSome

/-- Leftmost match: start offset and length (Python `pattern.search`). -/
def searchFrom (r : Rx) : List Char → Option (Nat × Nat)
  | [] => (matchLenAt r []).map (fun len => (0, len))
  | s@(_ :: rest) =>
    match matchLenAt r s with
    | some len => some (0, len)
    | none => (searchFrom r rest).map (fun p => (p.1 + 1, p.2))

/-- Replace every non-overlapping leftmost match, continuing after each
match's end (Python `pattern.subn`); the fuel is one more than the text
length, which covers every pattern whose matches are non-empty — all the
repository's patterns require several characters.  A zero-length match stops
the scan (unreachable for those patterns). -/
def subnGo (r : Rx) (repl : List Char) : Nat → List Char → List Char × Nat
  | 0, s => (s, 0)
  | fuel + 1, s =>
    match searchFrom r s with
    | none => (s, 0)
    | some (i, len) =>
      if len = 0 then (s, 0)
      else
        let rec' := subnGo r repl fuel (s.drop (i + len))
        (s.take i ++ repl ++ rec'.1, rec'.2 + 1)

/-- `pattern.subn(repl, s)`: the rewritten text and the replacement count. -/
def subn (r : Rx) (repl : String) (s : String) : String × Nat :=
  let out := subnGo r repl.data (s.data.length + 1) s.data
  (⟨out.1⟩, out.2)

/-! ## Secret redaction (security_sentinel.py) -/

/-- ASCII model of Python's `\s`. -/
def pySpace (c : Char) : Bool :=
  c == ' ' || c == '\t' || c == '\n' || c == '\r' || c == '\x0b' || c == '\x0c'

/-- ASCII model of Python's `\w`. -/
def wordChar (c : Char) : Bool :=
  ('a' ≤ c && c ≤ 'z') || ('A' ≤ c && c ≤ 'Z') || ('0' ≤ c && c ≤ '9') || c == '_'

def awsChar (c : Char) : Bool := ('0' ≤ c && c ≤ '9') || ('A' ≤ c && c ≤ 'Z')

def ghTokenChar (c : Char) : Bool := wordChar c

def keyValChar (c : Char) : Bool := wordChar c || c == '-' || c == '/' || c == '+'

def passValChar (c : Char) : Bool := !(pySpace c) && c != '\'' && c != '"'

def jwtChar (c : Char) : Bool := wordChar c || c == '-'

def connChar (c : Char) : Bool := !(pySpace c)

def bearerChar (c : Char) : Bool := wordChar c || c == '-' || c == '/' || c == '.'

def quoteChar (c : Char) : Bool := c == '\'' || c == '"'

def colonEq (c : Char) : Bool := c == ':' || c == '='

/-- Literal, case sensitive. -/
def rlit (s : String) : Rx := .lit s.data

/-- Sequence of pieces. -/
def rseq (l : List Rx) : Rx := l.foldr .seq (.lit [])

/-- Ordered alternation (first alternative preferred, as in Python). -/
def ralt : List Rx → Rx
  | [] => .lit []
  | [r] => r
  | r :: rest => .alt r (ralt rest)

/-- Case-insensitive literal (IGNORECASE over ASCII). -/
def litCI (s : String) : Rx :=
  rseq (s.data.map (fun c => .cls (fun d => d.toLower == c.toLower)))

/-- Optional `[_\-]` separator used by the generic-key pattern. -/
def sepChar (c : Char) : Bool := c == '_' || c == '-'

/-- `_SECRET_PATTERNS` (security_sentinel.py lines 14–56), in source order. -/
def SECRET_PATTERNS : List (String × Rx) :=
  [("AWS_KEY", rseq [rlit "AKIA", .repEq awsChar 16]),
   ("GITHUB_TOKEN", rseq [rlit "gh", .cls (fun c => c == 'p' || c == 'o' || c == 'u' || c == 's' || c == 'r'),
      rlit "_", .repGE ghTokenChar 36]),
   ("GENERIC_KEY", rseq [
      ralt [rseq [litCI "api", .opt (.cls sepChar), litCI "key"],
            litCI "apikey",
            rseq [litCI "secret", .opt (.cls sepChar), litCI "key"],
            rseq [litCI "access", .opt (.cls sepChar), litCI "token"],
            rseq [litCI "auth", .opt (.cls sepChar), litCI "token"]],
      .repGE pySpace 0, .cls colonEq, .repGE pySpace 0,
      .opt (.cls quoteChar), .repGE keyValChar 20, .opt (.cls quoteChar)]),
   ("PASSWORD", rseq [
      ralt [litCI "password", litCI "passwd", litCI "secret", litCI "credential"],
      .repGE pySpace 0, .cls colonEq, .repGE pySpace 0,
      .opt (.cls quoteChar), .repGE passValChar 8, .opt (.cls quoteChar)]),
   ("PRIVATE_KEY", rseq [rlit "-----BEGIN ",
      .opt (ralt [rlit "RSA ", rlit "EC ", rlit "DSA ", rlit "OPENSSH "]),
      rlit "PRIVATE KEY-----"]),
   ("JWT", rseq [rlit "eyJ", .repGE jwtChar 10, rlit ".", .repGE jwtChar 10,
      rlit ".", .repGE jwtChar 10]),
   ("CONN_STRING", rseq [
      ralt [litCI "postgres", litCI "mysql", litCI "mongodb"],
      .opt (rseq [rlit "+", .repGE wordChar 1]),
      rlit "://", .repGE connChar 10]),
   ("BEARER", rseq [
      ralt [litCI "Authorization", litCI "Bearer"],
      .repGE pySpace 0, .cls colonEq, .repGE pySpace 0,
      .opt (.cls quoteChar), litCI "Bearer", .repGE pySpace 1,
      .repGE bearerChar 20])]

/-- `_REDACTION` placeholder. -/
def REDACTION : String := "[REDACTED]"

/-- `SanitizedResult` dataclass. -/
structure SanitizedResult where
  clean_text : String
  redaction_count : Nat
  deriving Repr, DecidableEq

/-- The pattern loop of `sanitize` (security_sentinel.py lines 81–87): each
pattern is applied to the running text (so a pattern does see the previous
patterns' replacements), and counts accumulate. -/
def sanitizeGo : List (String × Rx) → String → Nat → String × Nat
  | [], result, count => (result, count)
  | (_, pat) :: rest, result, count =>
    let step := subn pat REDACTION result
    sanitizeGo rest step.1 (count + step.2)

/-- `sanitize` (security_sentinel.py lines 75–89). -/
def sanitize (text : String) : SanitizedResult :=
  let out := sanitizeGo SECRET_PATTERNS text 0
  ⟨out.1, out.2⟩

/-! ### Lemmas about redaction -/

theorem subn_count_zero (r : Rx) (repl s : String)
    (h : (subn r repl s).2 = 0) : (subn r repl s).1 = s := by
  unfold subn at h ⊢
  simp only [subnGo] at h ⊢
  cases hs : searchFrom r s.data with
  | none => simp [hs]
  | some p =>
    obtain ⟨i, len⟩ := p
    by_cases hlen : len = 0
    · simp [hs, hlen]
    · simp [hs, hlen] at h

theorem sanitizeGo_count_le (pats : List (String × Rx)) (t : String) (c : Nat) :
    c ≤ (sanitizeGo pats t c).2 := by
  induction pats generalizing t c with
  | nil => simp [sanitizeGo]
  | cons p rest ih =>
    simp only [sanitizeGo]
    exact le_trans (Nat.le_add_right c ((subn p.2 REDACTION t).2))
      (ih ((subn p.2 REDACTION t).1) (c + (subn p.2 REDACTION t).2))

theorem sanitizeGo_count_fixed (pats : List (String × Rx)) (t : String) (c : Nat)
    (h : (sanitizeGo pats t c).2 = c) : sanitizeGo pats t c = (t, c) := by
  induction pats generalizing t c with
  | nil => simp [sanitizeGo]
  | cons p rest ih =>
    simp only [sanitizeGo] at h ⊢
    have hle : c + (subn p.2 REDACTION t).2 ≤ c := by
      have hle0 := sanitizeGo_count_le rest ((subn p.2 REDACTION t).1)
        (c + (subn p.2 REDACTION t).2)
      rw [h] at hle0
      exact hle0
    have hzero : (subn p.2 REDACTION t).2 = 0 := by omega
    have htext : (subn p.2 REDACTION t).1 = t := subn_count_zero p.2 REDACTION t hzero
    rw [htext, hzero, Nat.add_zero] at h ⊢
    exact ih t c h

/-! ### Claim C5 -/

/-- Text whose bearer-token redaction manufactures a fresh password-pattern
match for the second pass. -/
def bearerText : String := "secret: Bearer: Bearer aaaaaaaaaaaaaaaaaaaaaa"

/-- C5 (counterexample): redaction is not idempotent — the bearer pattern
rewrites this text to one the password pattern matches, so a second pass
redacts again. -/
theorem sanitize_not_idempotent :
    ¬ (sanitize ((sanitize bearerText).clean_text)).redaction_count = 0 := by decide

/-- C5 (amended): redaction is idempotent on text it leaves untouched: when
the first pass redacts nothing the text is returned verbatim and a second
pass also redacts nothing.  In general a replacement can manufacture a match
for an earlier pattern, which only a later pass redacts. -/
theorem sanitize_idempotent_on_clean (x : String)
    (h : (sanitize x).redaction_count = 0) :
    (sanitize x).clean_text = x ∧
    (sanitize ((sanitize x).clean_text)).redaction_count = 0 := by
  have hfix : sanitizeGo SECRET_PATTERNS x 0 = (x, 0) :=
    sanitizeGo_count_fixed SECRET_PATTERNS x 0 h
  have hclean : (sanitize x).clean_text = x := by
    unfold sanitize
    rw [hfix]
  refine ⟨hclean, ?_⟩
  rw [hclean]
  exact h

/-- C5 (witness): the amended statement at a concrete clean text. -/
theorem sanitize_idempotent_on_clean_witness :
    (sanitize "hello world").clean_text = "hello world" ∧
    (sanitize ((sanitize "hello world").clean_text)).redaction_count = 0 :=
  sanitize_idempotent_on_clean "hello world" (by decide)

/-! ## Skeleton extraction (ast_extractor.py) -/

/-- Python `str.splitlines` for LF-separated text: no trailing empty piece.
(The exotic separators `\r`, `\v`, `\f` etc. are outside the model.) -/
def splitlines (s : String) : List String :=
  if s = "" then []
  else
    let parts := (splitChar '\n' s.data).map (fun l => (⟨l⟩ : String))
    if s.data.getLast? = some '\n' then parts.dropLast else parts

/-- Python `str.rstrip()` (whitespace per `Char.isWhitespace`). -/
def rstrip (s : String) : String :=
  ⟨(s.data.reverse.dropWhile Char.isWhitespace).reverse⟩

/-- Index of the last occurrence of a character (Python `str.rfind`,
`none` for −1). -/
def lastIdxOf (t : Char) : List Char → Option Nat
  | [] => none
  | c :: cs =>
    match lastIdxOf t cs with
    | some i => some (i + 1)
    | none => if c = t then some 0 else none

/-- `_extension` (ast_extractor.py lines 158–160): lowercased text from the
last dot on, or the empty string. -/
def extension (path : String) : String :=
  match lastIdxOf '.' path.data with
  | none => ""
  | some i => pyToLower ⟨path.data.drop i⟩

def PYTHON_EXTS : List String := [".py", ".pyw"]

def JS_TS_EXTS : List String := [".js", ".jsx", ".ts", ".tsx", ".mjs", ".cjs"]

def MAX_FALLBACK_LINES : Nat := 60

/-- `FileSkeletonResult` dataclass (domain/entities.py). -/
structure FileSkeletonResult where
  path : String
  skeleton_text : String
  imports : List String := []
  deriving Repr, DecidableEq

/-- `(?:export\s+)?`. -/
def optExport : Rx := .opt (rseq [rlit "export", .repGE pySpace 1])

/-- `(?:default\s+)?`. -/
def optDefault : Rx := .opt (rseq [rlit "default", .repGE pySpace 1])

/-- `_JS_PATTERNS` (ast_extractor.py lines 17–23), in source order; each is
applied anchored at line start (the code calls `pattern.match(line)`). -/
def JS_PATTERNS : List Rx :=
  [rseq [.repGE pySpace 0, optExport, optDefault, rlit "class", .repGE pySpace 1,
     .repGE wordChar 1],
   rseq [.repGE pySpace 0, optExport, optDefault, rlit "function", .repGE pySpace 1,
     .repGE wordChar 1],
   rseq [.repGE pySpace 0, optExport, ralt [rlit "const", rlit "let", rlit "var"],
     .repGE pySpace 1, .repGE wordChar 1, .repGE pySpace 0, rlit "=",
     .repGE pySpace 0, .opt (rseq [rlit "async", .repGE pySpace 1]), rlit "("],
   rseq [.repGE pySpace 0, optExport, ralt [rlit "interface", rlit "type"],
     .repGE pySpace 1, .repGE wordChar 1],
   rseq [.repGE pySpace 0, ralt [rlit "import", rlit "require"], .repGE pySpace 0,
     .cls (fun c => c == '(' || c == '\x7b')]]

/-- Group-1 capture of `['\"]([^'\"]+)['\"]`: a quote, the non-empty run of
non-quote characters, and a closing quote. -/
def quoteCapture (l : List Char) : Option String :=
  match l with
  | [] => none
  | q :: rest =>
    if quoteChar q then
      let cap := rest.takeWhile (fun c => !(quoteChar c))
      if cap ≠ [] ∧ rest.drop cap.length ≠ [] then some ⟨cap⟩ else none
    else none

/-- One position of the `_parse_js_import_target` search: the two keyword
alternatives begin with different characters, so trying them in order at a
fixed position matches Python's backtracking exactly. -/
def jsImportCaptureAt (l : List Char) : Option String :=
  if "from".data.isPrefixOf l then quoteCapture ((l.drop 4).dropWhile pySpace)
  else if "require(".data.isPrefixOf l then quoteCapture ((l.drop 8).dropWhile pySpace)
  else none

/-- Leftmost-position scan of the import-target search. -/
def jsImportSearch : List Char → Option String
  | [] => none
  | l@(_ :: rest) => (jsImportCaptureAt l).orElse (fun _ => jsImportSearch rest)

/-- `_parse_js_import_target` (ast_extractor.py lines 134–136):
`re.search` for a quoted module path after `from` or `require(`, falling
back to the whole line. -/
def parse_js_import_target (imp_line : String) : String :=
  (jsImportSearch imp_line.data).getD imp_line

/-- `_extract_js_skeleton` (ast_extractor.py lines 111–131). -/
def extract_js_skeleton (source : String) : String × List String :=
  let lines := splitlines source
  let step := lines.foldl (fun (acc : List String × List String) line =>
    let stripped := pyStrip line
    if (strStartsWith stripped "import " || strStartsWith stripped "const ") &&
        strContains stripped "require(" then
      (acc.1, acc.2 ++ [stripped])
    else if strStartsWith stripped "import " then
      (acc.1, acc.2 ++ [stripped])
    else if JS_PATTERNS.any (fun p => matchAtStart p line) then
      (acc.1 ++ [stripped], acc.2)
    else acc) ([], [])
  let skeleton :=
    if step.1 ≠ [] then joinNl step.1
    else joinNl (lines.take MAX_FALLBACK_LINES)
  (skeleton, step.2.map parse_js_import_target)

/-- The `declaration_re` of `_extract_generic_skeleton` (ast_extractor.py
lines 142–145). -/
def genericDeclarationRe : Rx :=
  rseq [.repGE pySpace 0,
    ralt [rlit "def ", rlit "fn ", rlit "func ", rlit "class ", rlit "struct ",
      rlit "pub ", rlit "package ", rlit "module ", rlit "type ",
      rlit "interface ", rlit "impl ", rlit "enum ", rlit "#include ",
      rlit "using ", rlit "namespace "]]

/-- `_extract_generic_skeleton` (ast_extractor.py lines 139–155). -/
def extract_generic_skeleton (source : String) : String × List String :=
  let lines := splitlines source
  let meaningful := (lines.take 300).foldl (fun (acc : List String) line =>
    let stripped := pyStrip line
    if matchAtStart genericDeclarationRe line || strStartsWith stripped "//" ||
        strStartsWith stripped "#" || strStartsWith stripped "/*" then
      acc ++ [stripped]
    else acc) []
  let meaningful :=
    if meaningful.length < 3 then (lines.take MAX_FALLBACK_LINES).map rstrip
    else meaningful
  (joinNl meaningful, [])

/-- Exception kinds the external CPython `ast.parse` can raise: the
`SyntaxError` (including `IndentationError`) that malformed source raises —
the only kind the source's except clause names — plus the kinds the clause
does not catch: `ValueError` (null-byte content, CPython ≤ 3.11) and
`RecursionError`/`MemoryError` (deeply nested sources). -/
inductive PyExc where
  | syntaxError
  | valueError
  | recursionError
  deriving Repr, DecidableEq

/-- `extract_skeleton` (ast_extractor.py lines 163–179).  The Python tier
`_extract_python_skeleton` parses with the external CPython `ast` module, so
it is modelled as an arbitrary function returning a (skeletonText, imports)
pair or one of the parser's exception kinds.  The except clause catches
exactly `SyntaxError` and falls back to the raw head of the file; any other
exception kind propagates out of `extract_skeleton`, hence the `Except`
result type.  The JS and generic tiers are embedded concretely and cannot
fail. -/
def extract_skeleton (python_skeleton : String → Except PyExc (String × List String))
    (path content : String) : Except PyExc FileSkeletonResult :=
  let ext := extension path
  let res :=
    if ext ∈ PYTHON_EXTS then python_skeleton content
    else if ext ∈ JS_TS_EXTS then Except.ok (extract_js_skeleton content)
    else Except.ok (extract_generic_skeleton content)
  match res with
  | .ok sk => .ok ⟨path, sk.1, sk.2⟩
  | .error .syntaxError =>
    .ok ⟨path, joinNl ((splitlines content).take MAX_FALLBACK_LINES), []⟩
  | .error e => .error e

/-! ### Claim C6 -/

/-- Parser model behaving as CPython ≤ 3.11's `ast.parse` does on content
holding a null byte: it raises `ValueError`, not `SyntaxError`. -/
def nullByteParser : String → Except PyExc (String × List String) :=
  fun _ => .error .valueError

/-- C6 (counterexample): extract_skeleton can raise — with the parser
raising the `ValueError` that null-byte content provokes on CPython ≤ 3.11,
the exception passes the `except SyntaxError` clause and propagates instead
of producing a SkeletonResult. -/
theorem extract_skeleton_raises_uncaught :
    extract_skeleton nullByteParser "x.py" "\x00" = Except.error PyExc.valueError := rfl

/-- C6 (amended): extract_skeleton never raises for non-Python extensions
and never lets a SyntaxError escape: a SyntaxError parse failure yields the
first 60 raw lines with an empty import list; but a parser exception kind
the except clause does not name (ValueError on null bytes in CPython ≤ 3.11,
RecursionError/MemoryError on deep nesting) propagates unchanged. -/
theorem extract_skeleton_syntax_fallback_and_uncaught
    (python_skeleton : String → Except PyExc (String × List String))
    (path content : String) :
    (extension path ∈ PYTHON_EXTS → python_skeleton content = .error .syntaxError →
      extract_skeleton python_skeleton path content =
        .ok ⟨path, joinNl ((splitlines content).take 60), []⟩) ∧
    (extension path ∉ PYTHON_EXTS →
      ∃ r, extract_skeleton python_skeleton path content = .ok r) ∧
    (∀ e, e ≠ PyExc.syntaxError → extension path ∈ PYTHON_EXTS →
      python_skeleton content = .error e →
      extract_skeleton python_skeleton path content = .error e) := by
  refine ⟨?_, ?_, ?_⟩
  · intro hext hfail
    unfold extract_skeleton
    simp only [hext, if_pos, hfail]
    rfl
  · intro hext
    unfold extract_skeleton
    simp only [hext, if_false]
    by_cases hjs : extension path ∈ JS_TS_EXTS
    · simp only [hjs, if_true]
      exact ⟨_, rfl⟩
    · simp only [hjs, if_false]
      exact ⟨_, rfl⟩
  · intro e hne hext hfail
    cases e with
    | syntaxError => exact absurd rfl hne
    | valueError =>
      unfold extract_skeleton
      simp only [hext, if_pos, hfail]
    | recursionError =>
      unfold extract_skeleton
      simp only [hext, if_pos, hfail]

/-- C6 (witness): the amended statement at concrete inputs — a SyntaxError
fallback on a python file, a non-Python file that cannot raise, and a
propagated ValueError. -/
theorem extract_skeleton_syntax_fallback_and_uncaught_witness :
    extract_skeleton (fun _ => Except.error PyExc.syntaxError) "app.py" "a = (\nb" =
      Except.ok ⟨"app.py", joinNl ((splitlines "a = (\nb").take 60), []⟩ ∧
    (∃ r, extract_skeleton nullByteParser "notes.txt" "hello" = Except.ok r) ∧
    extract_skeleton nullByteParser "cfg.py" "\x00" = Except.error PyExc.valueError :=
  ⟨(extract_skeleton_syntax_fallback_and_uncaught (fun _ => Except.error PyExc.syntaxError)
      "app.py" "a = (\nb").1 (by decide) rfl,
   (extract_skeleton_syntax_fallback_and_uncaught nullByteParser "notes.txt" "hello").2.1
     (by decide),
   (extract_skeleton_syntax_fallback_and_uncaught nullByteParser "cfg.py" "\x00").2.2
     PyExc.valueError (by decide) (by decide) rfl⟩

/-! ## File scoring (file_scorer.py)

Scores are modelled in exact rational arithmetic; the Python floats are the
rounded images of these values, and the claims below (ordering produced by
the sort, tie handling, branch selection) do not depend on rounding.  The
real-valued `math.log10` inside the size bell curve has no exact rational
embedding, so the scoring functions take the logarithm as a parameter and
the theorems hold for every choice of it. -/

/-- `ScoredFile` dataclass (domain/entities.py). -/
structure ScoredFile where
  path : String
  score : ℚ
  category : FileCategory
  deriving Repr, DecidableEq

/-- `_CATEGORY_BONUS` (file_scorer.py lines 19–27); the dict covers every
category, so the lookup's 0.1 default is never taken. -/
def CATEGORY_BONUS : FileCategory → ℚ
  | .README => 1
  | .CONFIG => 7/10
  | .ENTRY_POINT => 9/10
  | .SOURCE => 5/10
  | .TEST => 3/10
  | .DOCS => 4/10
  | .OTHER => 1/10

/-- `_ENTRY_POINT_NAMES` of the scorer (file_scorer.py lines 29–35) — a
different table from the filter's. -/
def SCORER_ENTRY_POINT_NAMES : List String :=
  ["main.py", "app.py", "index.js", "index.ts", "index.tsx",
   "server.py", "server.js", "server.ts", "manage.py",
   "cli.py", "wsgi.py", "asgi.py", "main.go", "main.rs"]

/-- `_name_heuristic` (file_scorer.py lines 38–47). -/
def name_heuristic (path : String) : ℚ :=
  let name := pyToLower (filename path)
  if name ∈ SCORER_ENTRY_POINT_NAMES then 1
  else if strStartsWith name "readme" then 1
  else if name ∈ ["__init__.py", "mod.rs", "lib.rs"] then 6/10
  else 0

/-- `_depth_score` (file_scorer.py lines 50–53). -/
def depth_score (path : String) : ℚ :=
  1 / (1 + (path.data.count '/' : ℚ))

/-- `_size_score` (file_scorer.py lines 56–66), parametric in the logarithm
used by the bell curve. -/
def size_score (log10 : ℚ → ℚ) (size_bytes : Int) : ℚ :=
  if size_bytes ≤ 0 then 1/10
  else
    let kb : ℚ := (size_bytes : ℚ) / 1024
    if kb < 1/10 then 2/10
    else if kb > 100 then 3/10
    else max (1/10) (1 - |log10 (kb / 5)| * (3/10))

/-- Directed graph in networkx style: node set in insertion order, duplicate
nodes and edges ignored. -/
structure DiGraph where
  nodes : List String
  edges : List (String × String)
  deriving Repr, DecidableEq

def addNode (g : DiGraph) (v : String) : DiGraph :=
  if v ∈ g.nodes then g else ⟨g.nodes ++ [v], g.edges⟩

def addEdge (g : DiGraph) (u v : String) : DiGraph :=
  let g1 := addNode (addNode g u) v
  if (u, v) ∈ g1.edges then g1 else ⟨g1.nodes, g1.edges ++ [(u, v)]⟩

/-- Python-dict upsert on an association list (insertion order retained,
later writes win). -/
def upsert (m : List (String × String)) (k v : String) : List (String × String) :=
  if (m.find? (fun p => p.1 = k)).isSome then
    m.map (fun p => if p.1 = k then (k, v) else p)
  else m ++ [(k, v)]

def pbmLookup (m : List (String × String)) (k : String) : Option String :=
  (m.find? (fun p => p.1 = k)).map (·.2)

/-- The module key of a path used by `_build_import_graph` (file_scorer.py
lines 82–83): basename of the slash-normalised path, with everything from
the last dot dropped when a dot is present. -/
def moduleKey (path : String) : String :=
  let replaced : String := ⟨path.data.map (fun c => if c = '\\' then '/' else c)⟩
  let base := filename replaced
  match lastIdxOf '.' base.data with
  | none => base
  | some i => ⟨base.data.take i⟩

/-- `_build_import_graph` (file_scorer.py lines 72–95). -/
def build_import_graph (skeletons : List FileSkeletonResult) : DiGraph :=
  let init := skeletons.foldl
    (fun (acc : List (String × String) × DiGraph) sk =>
      (upsert acc.1 (moduleKey sk.path) sk.path, addNode acc.2 sk.path))
    ([], ⟨[], []⟩)
  skeletons.foldl (fun g sk =>
    sk.imports.foldl (fun g imp =>
      let target : String := ⟨(splitChar '.' imp.data).headD []⟩
      match pbmLookup init.1 target with
      | some target_path =>
        if target_path ≠ sk.path then addEdge g sk.path target_path else g
      | none => g) g) init.2

/-! ### PageRank model (external dependency)

`_compute_centrality` calls `networkx.pagerank(graph, alpha=0.85)`, an
external library routine.  Per the spec, any standard damped-random-walk
implementation with damping 0.85 is an admissible model; it is modelled as
20 power-iteration steps in exact rationals, starting uniform, with the
dangling-node mass redistributed uniformly.  The development only relies on
properties every such implementation has: one value per node, and all
values strictly positive (each step adds the teleport mass (1−α)/N > 0). -/

def outDeg (edges : List (String × String)) (u : String) : Nat :=
  (edges.filter (fun e => e.1 = u)).length

def inSources (edges : List (String × String)) (v : String) : List String :=
  (edges.filter (fun e => e.2 = v)).map (·.1)

/-- Score lookup in a state vector, defaulting to 0. -/
def getQ (st : List (String × ℚ)) (u : String) : ℚ :=
  ((st.find? (fun p => p.1 = u)).map (·.2)).getD 0

/-- One damped power-iteration step. -/
def prStep (nodes : List String) (edges : List (String × String))
    (st : List (String × ℚ)) : List (String × ℚ) :=
  let N : ℚ := nodes.length
  let dangling := ((nodes.filter (fun u => outDeg edges u = 0)).map (getQ st)).sum
  nodes.map (fun v =>
    (v, (1 - 85/100) / N +
      (85/100) * ((((inSources edges v).map
        (fun u => getQ st u / (outDeg edges u : ℚ))).sum) + dangling / N)))

/-- Iterated power steps from the uniform start. -/
def prIter (nodes : List String) (edges : List (String × String)) :
    Nat → List (String × ℚ)
  | 0 => nodes.map (fun v => (v, 1 / (nodes.length : ℚ)))
  | k + 1 => prStep nodes edges (prIter nodes edges k)

/-- The PageRank model: 20 iterations. -/
def pagerank (g : DiGraph) : List (String × ℚ) := prIter g.nodes g.edges 20

/-- `_compute_centrality` (file_scorer.py lines 98–111): empty when the graph
has fewer than two nodes, otherwise PageRank normalised by its maximum (the
all-zero guard is kept from the source; it is dead under any positive-valued
PageRank).  The source's convergence-failure handler is dead in this model
because the fixed-iteration walk always returns. -/
def compute_centrality (g : DiGraph) : List (String × ℚ) :=
  if g.nodes.length < 2 then []
  else
    let raw := pagerank g
    let max_val := if raw = [] then 1 else ((raw.map (·.2)).foldl max 0)
    if max_val = 0 then raw.map (fun p => (p.1, 0))
    else raw.map (fun p => (p.1, p.2 / max_val))

/-- The scored list before sorting — the loop of `score_files`
(file_scorer.py lines 137–163). -/
def scoredList (log10 : ℚ → ℚ) (skeletons : List FileSkeletonResult)
    (categories : String → Option FileCategory) (sizes : String → Option Int) :
    List ScoredFile :=
  let centrality := compute_centrality (build_import_graph skeletons)
  skeletons.map (fun sk =>
    let cat := (categories sk.path).getD .SOURCE
    let cat_bonus := CATEGORY_BONUS cat
    let name_h := name_heuristic sk.path
    let depth_h := depth_score sk.path
    let size_h := size_score log10 ((sizes sk.path).getD 0)
    let composite :=
      if 3 ≤ centrality.length then
        30/100 * getQ centrality sk.path + 25/100 * cat_bonus + 20/100 * name_h +
          15/100 * depth_h + 10/100 * size_h
      else
        35/100 * cat_bonus + 30/100 * name_h + 20/100 * depth_h + 15/100 * size_h
    ⟨sk.path, composite, cat⟩)

/-- The sort order of `scored.sort(key=lambda s: s.score, reverse=True)`:
keep an earlier element before a later one unless its score is smaller. -/
def scoreGE (a b : ScoredFile) : Prop := b.score ≤ a.score

instance : DecidableRel scoreGE :=
  fun a b => inferInstanceAs (Decidable (b.score ≤ a.score))

instance : IsTotal ScoredFile scoreGE := ⟨fun a b => le_total b.score a.score⟩

instance : IsTrans ScoredFile scoreGE := ⟨fun _ _ _ hab hbc => le_trans hbc hab⟩

/-- `score_files` (file_scorer.py lines 117–166).  CPython's sort is stable;
a stable sort's output is determined by the comparator and stability, so the
stable insertion sort with `scoreGE` yields the same list. -/
def score_files (log10 : ℚ → ℚ) (skeletons : List FileSkeletonResult)
    (categories : String → Option FileCategory) (sizes : String → Option Int) :
    List ScoredFile :=
  List.insertionSort scoreGE (scoredList log10 skeletons categories sizes)

/-! ### Lemmas about centrality -/

theorem prIter_length (nodes : List String) (edges : List (String × String)) :
    ∀ k, (prIter nodes edges k).length = nodes.length
  | 0 => by simp [prIter]
  | k + 1 => by simp [prIter, prStep]

theorem foldl_max_init_le (l : List ℚ) (a : ℚ) : a ≤ l.foldl max a := by
  induction l generalizing a with
  | nil => exact le_refl a
  | cons x xs ih => exact le_trans (le_max_left a x) (ih (max a x))

theorem le_foldl_max (l : List ℚ) (a x : ℚ) (hx : x ∈ l) : x ≤ l.foldl max a := by
  induction l generalizing a with
  | nil => cases hx
  | cons y ys ih =>
    rcases List.mem_cons.mp hx with rfl | hmem
    · exact le_trans (le_max_right a x) (foldl_max_init_le ys (max a x))
    · exact ih (max a y) hmem

/-- All PageRank values are strictly positive on a non-empty node set: the
teleport mass (1−α)/N is added at every step and the start is uniform. -/
theorem prIter_pos (nodes : List String) (edges : List (String × String))
    (hne : nodes ≠ []) :
    ∀ k, ∀ p ∈ prIter nodes edges k, 0 < p.2 := by
  have hN : (0 : ℚ) < nodes.length := by
    exact_mod_cast List.length_pos.mpr hne
  intro k
  induction k with
  | zero =>
    intro p hp
    obtain ⟨v, _, rfl⟩ := List.mem_map.mp hp
    exact one_div_pos.mpr hN
  | succ k ih =>
    intro p hp
    have hq : ∀ u, 0 ≤ getQ (prIter nodes edges k) u := by
      intro u
      unfold getQ
      cases hf : (prIter nodes edges k).find? (fun q => q.1 = u) with
      | none => simp
      | some q =>
        show (0 : ℚ) ≤ q.2
        exact le_of_lt (ih q (List.mem_of_find?_eq_some hf))
    obtain ⟨v, _, rfl⟩ := List.mem_map.mp hp
    have hin : (0 : ℚ) ≤
        (((inSources edges v).map
          (fun u => getQ (prIter nodes edges k) u / (outDeg edges u : ℚ))).sum) :=
      List.sum_nonneg (by
        intro x hx
        obtain ⟨u, _, rfl⟩ := List.mem_map.mp hx
        exact div_nonneg (hq u) (by positivity))
    have hdang : (0 : ℚ) ≤
        (((nodes.filter (fun u => outDeg edges u = 0)).map
          (getQ (prIter nodes edges k))).sum) :=
      List.sum_nonneg (by
        intro x hx
        obtain ⟨u, _, rfl⟩ := List.mem_map.mp hx
        exact hq u)
    refine add_pos_of_pos_of_nonneg (by positivity) ?_
    have : (0 : ℚ) ≤ (85 / 100 : ℚ) := by norm_num
    refine mul_nonneg this (add_nonneg hin (div_nonneg hdang (le_of_lt hN)))

/-- Every centrality value the scorer sees is nonzero, so filtering for
nonzero values keeps the whole table. -/
theorem compute_centrality_filter_nonzero (g : DiGraph) :
    ((compute_centrality g).filter (fun p => p.2 ≠ 0)).length =
      (compute_centrality g).length := by
  by_cases h2 : g.nodes.length < 2
  · have h : compute_centrality g = [] := by
      unfold compute_centrality
      exact if_pos h2
    rw [h]
    rfl
  · have hne : g.nodes ≠ [] := by
      intro h
      rw [h] at h2
      simp at h2
    have hlen : (pagerank g).length = g.nodes.length := prIter_length _ _ 20
    have hraw : pagerank g ≠ [] := by
      intro h
      rw [h] at hlen
      exact hne (List.length_eq_zero.mp hlen.symm)
    have hpos : ∀ p ∈ pagerank g, 0 < p.2 := prIter_pos g.nodes g.edges hne 20
    obtain ⟨p0, hp0⟩ := List.exists_mem_of_ne_nil _ hraw
    have hmax : 0 < ((pagerank g).map (·.2)).foldl max 0 :=
      lt_of_lt_of_le (hpos p0 hp0)
        (le_foldl_max _ 0 p0.2 (List.mem_map.mpr ⟨p0, hp0, rfl⟩))
    have hmaxne : ¬ ((pagerank g).map (·.2)).foldl max 0 = 0 := ne_of_gt hmax
    have hcc : compute_centrality g = (pagerank g).map
        (fun p => (p.1, p.2 / ((pagerank g).map (·.2)).foldl max 0)) := by
      unfold compute_centrality
      rw [if_neg h2]
      simp only [if_neg hraw, if_neg hmaxne]
    rw [hcc]
    have hall : ∀ q ∈ (pagerank g).map
        (fun p => (p.1, p.2 / ((pagerank g).map (·.2)).foldl max 0)), q.2 ≠ 0 := by
      intro q hqm
      obtain ⟨p, hpm, rfl⟩ := List.mem_map.mp hqm
      exact ne_of_gt (div_pos (hpos p hpm) hmax)
    rw [List.filter_eq_self.mpr (fun q hqm => by simpa using hall q hqm)]

/-- Number of nodes that received a nonzero centrality value. -/
def nonzeroCentralityCount (skeletons : List FileSkeletonResult) : Nat :=
  ((compute_centrality (build_import_graph skeletons)).filter
    (fun p => p.2 ≠ 0)).length

theorem nonzeroCentralityCount_eq (skeletons : List FileSkeletonResult) :
    nonzeroCentralityCount skeletons =
      (compute_centrality (build_import_graph skeletons)).length :=
  compute_centrality_filter_nonzero _

/-! ### Claim C8 -/

/-- The centrality-weighted blend of the claim:
0.30·centrality + 0.25·categoryBonus + 0.20·name + 0.15·depth + 0.10·size. -/
def centralityFormula (log10 : ℚ → ℚ) (skeletons : List FileSkeletonResult)
    (categories : String → Option FileCategory) (sizes : String → Option Int)
    (sk : FileSkeletonResult) : ℚ :=
  30/100 * getQ (compute_centrality (build_import_graph skeletons)) sk.path +
    25/100 * CATEGORY_BONUS ((categories sk.path).getD .SOURCE) +
    20/100 * name_heuristic sk.path +
    15/100 * depth_score sk.path +
    10/100 * size_score log10 ((sizes sk.path).getD 0)

/-- The heuristic-only blend of the claim:
0.35·categoryBonus + 0.30·name + 0.20·depth + 0.15·size. -/
def heuristicFormula (log10 : ℚ → ℚ)
    (categories : String → Option FileCategory) (sizes : String → Option Int)
    (sk : FileSkeletonResult) : ℚ :=
  35/100 * CATEGORY_BONUS ((categories sk.path).getD .SOURCE) +
    30/100 * name_heuristic sk.path +
    20/100 * depth_score sk.path +
    15/100 * size_score log10 ((sizes sk.path).getD 0)

/-- C8 (confirmed): score_files sorts the per-file scores where every file is
scored with the centrality-weighted formula exactly when at least 3 nodes
received a nonzero centrality value, and with the heuristic-only formula
otherwise.  (The code's branch condition counts all centrality entries, but
every entry the scorer ever produces is nonzero.) -/
theorem score_files_centrality_gate (log10 : ℚ → ℚ)
    (skeletons : List FileSkeletonResult)
    (categories : String → Option FileCategory) (sizes : String → Option Int) :
    score_files log10 skeletons categories sizes =
      List.insertionSort scoreGE (skeletons.map (fun sk =>
        ⟨sk.path,
         if 3 ≤ nonzeroCentralityCount skeletons then
           centralityFormula log10 skeletons categories sizes sk
         else heuristicFormula log10 categories sizes sk,
         (categories sk.path).getD .SOURCE⟩)) := by
  unfold score_files scoredList centralityFormula heuristicFormula
  rw [nonzeroCentralityCount_eq]

/-! ### Claim C4 -/

/-- Two equal-score files listed in anti-lexicographic order. -/
def tieSkeletons : List FileSkeletonResult := [⟨"b", "", []⟩, ⟨"a", "", []⟩]

/-- Lexicographic code-point order on character lists (Python `str <`). -/
def listLtB : List Char → List Char → Bool
  | [], [] => false
  | [], _ :: _ => true
  | _ :: _, [] => false
  | a :: as, b :: bs => if a < b then true else if b < a then false else listLtB as bs

/-- Python string comparison `a < b`. -/
def strLt (a b : String) : Bool := listLtB a.data b.data

/-- C4 (counterexample): the sort has no path tiebreak — the two files score
equally and the output keeps the input order b, a, not the lexicographic
order a, b the claim requires. -/
theorem score_files_no_path_tiebreak :
    ¬ List.Pairwise (fun x y : ScoredFile =>
        y.score < x.score ∨ (x.score = y.score ∧ strLt x.path y.path = true))
      (score_files (fun _ => 0) tieSkeletons (fun _ => none) (fun _ => none)) := by
  decide

/-- C4 (amended): the output is sorted by composite score descending; ties
keep the input (skeleton-list) order, Python's sort being stable — there is
no path tiebreak; and rerunning on identical input yields the identical
list (the scorer is a pure function). -/
theorem score_files_sorted_stable_deterministic (log10 : ℚ → ℚ)
    (skeletons : List FileSkeletonResult)
    (categories : String → Option FileCategory) (sizes : String → Option Int) :
    List.Sorted scoreGE (score_files log10 skeletons categories sizes) ∧
    (∀ a b : ScoredFile, scoreGE a b →
      List.Sublist [a, b] (scoredList log10 skeletons categories sizes) →
      List.Sublist [a, b] (score_files log10 skeletons categories sizes)) ∧
    score_files log10 skeletons categories sizes =
      score_files log10 skeletons categories sizes := by
  refine ⟨List.sorted_insertionSort scoreGE _, ?_, rfl⟩
  intro a b hab hsub
  exact List.pair_sublist_insertionSort hab hsub

/-- C4 (witness): sortedness on a concrete run, and the stability clause
instantiated at the two equal-score files of the counterexample input. -/
theorem score_files_sorted_stable_deterministic_witness :
    List.Sorted scoreGE
      (score_files (fun _ => 0) tieSkeletons (fun _ => none) (fun _ => none)) ∧
    List.Sublist [⟨"b", 39/100, .SOURCE⟩, ⟨"a", 39/100, .SOURCE⟩]
      (score_files (fun _ => 0) tieSkeletons (fun _ => none) (fun _ => none)) :=
  ⟨(score_files_sorted_stable_deterministic (fun _ => 0) tieSkeletons
      (fun _ => none) (fun _ => none)).1,
   (score_files_sorted_stable_deterministic (fun _ => 0) tieSkeletons
      (fun _ => none) (fun _ => none)).2.1
     ⟨"b", 39/100, .SOURCE⟩ ⟨"a", 39/100, .SOURCE⟩ (by decide)
     (by
       rw [show scoredList (fun _ => 0) tieSkeletons (fun _ => none) (fun _ => none) =
         [⟨"b", 39/100, .SOURCE⟩, ⟨"a", 39/100, .SOURCE⟩] from by decide])⟩

end RepoSummarizer
